import Mathlib

/-!
# Verification of the esports odds pipeline

Shallow embedding of the de-vig, normalization, matching, and store logic of
the `nick1216/esports` repository (`src/scraper.py`, `src/functions.py`,
`src/database.py`), together with proofs settling the frozen claims about it.

Modelling conventions:
* Python floats are modelled as exact reals (for the de-vig math, which uses
  a non-integer power) or exact rationals (for the store/EV arithmetic).
* SQL rows are records; tables are lists of records; `NULL`able columns are
  `Option`; SQL timestamps are integer epoch seconds.
* Python truthiness tests on numeric/optional values (`if not x`,
  `x if x else y`) treat both `None` and `0` as falsy, and are embedded as
  such.
-/

/-! ## Odds math (`src/scraper.py`)

`multiplicative_devig` and `power_method_devig` first form the implied
probabilities `p1 = 1/home_odds`, `p2 = 1/away_odds`, then the fair
probabilities, then invert back to fair odds.  The source computes the fair
probabilities inline (`fair_p1`, `fair_p2` local variables); here those
intermediates are split into named definitions so that theorems can speak
about them, and the devig functions invert them exactly as the source does.
-/

/-- The intermediate `(fair_p1, fair_p2)` of `PinnacleScraper.multiplicative_devig`:
`p1 = 1.0 / home_odds`, `p2 = 1.0 / away_odds`, `total = p1 + p2`,
`fair_p1 = p1 / total`, `fair_p2 = p2 / total`. -/
noncomputable def mult_fair_probs (home_odds away_odds : ℝ) : ℝ × ℝ :=
  let p1 := 1 / home_odds
  let p2 := 1 / away_odds
  let total := p1 + p2
  (p1 / total, p2 / total)

/-- `PinnacleScraper.multiplicative_devig`: returns
`(fair_home, fair_away) = (1.0 / fair_p1, 1.0 / fair_p2)`. -/
noncomputable def multiplicative_devig (home_odds away_odds : ℝ) : ℝ × ℝ :=
  (1 / (mult_fair_probs home_odds away_odds).1,
   1 / (mult_fair_probs home_odds away_odds).2)

/-- The intermediate `(fair_p1, fair_p2)` of `PinnacleScraper.power_method_devig`:
`p1_k = p1 ** k`, `p2_k = p2 ** k`, `sum_pk = p1_k + p2_k`,
`fair_p1 = p1_k / sum_pk`, `fair_p2 = p2_k / sum_pk`.  The Python float power
is modelled by real exponentiation. -/
noncomputable def power_fair_probs (home_odds away_odds k : ℝ) : ℝ × ℝ :=
  let p1 := 1 / home_odds
  let p2 := 1 / away_odds
  let p1_k := p1 ^ k
  let p2_k := p2 ^ k
  let sum_pk := p1_k + p2_k
  (p1_k / sum_pk, p2_k / sum_pk)

/-- `PinnacleScraper.power_method_devig` (default exponent `k = 1.07`):
returns `(fair_home, fair_away) = (1.0 / fair_p1, 1.0 / fair_p2)`. -/
noncomputable def power_method_devig (home_odds away_odds : ℝ) (k : ℝ := 107 / 100) :
    ℝ × ℝ :=
  (1 / (power_fair_probs home_odds away_odds k).1,
   1 / (power_fair_probs home_odds away_odds k).2)

/-! ## Event normalizer (`src/functions.py`)

`_norm_team` lowercases, replaces every run of characters outside `[a-z0-9]`
by a single space (`re.sub(r'[^a-z0-9]+', ' ', s)`) and strips; equivalently,
the result is the maximal `[a-z0-9]` runs of the lowered string joined by
single spaces, which is how it is written here (`normTokens` collects the
runs, `joinTokens` interleaves single spaces).  `str.lower` is modelled on
its ASCII fragment (`lowerChar`), which is what the `[a-z0-9]` character
class can ever retain. -/

/-- ASCII fragment of Python `str.lower`, applied characterwise. -/
def lowerChar (c : Char) : Char :=
  if 65 ≤ c.toNat ∧ c.toNat ≤ 90 then Char.ofNat (c.toNat + 32) else c

/-- Membership in the regex character class `[a-z0-9]`. -/
def isLowerAlnum (c : Char) : Bool :=
  (97 ≤ c.toNat && c.toNat ≤ 122) || (48 ≤ c.toNat && c.toNat ≤ 57)

/-- Accumulator pass splitting a character list into its maximal
`[a-z0-9]` runs; `acc` holds the (reversed) run currently being read. -/
def normTokensGo : List Char → List Char → List (List Char)
  | [], acc => if acc = [] then [] else [acc.reverse]
  | c :: cs, acc =>
      if isLowerAlnum c then normTokensGo cs (c :: acc)
      else if acc = [] then normTokensGo cs []
      else acc.reverse :: normTokensGo cs []

/-- The maximal `[a-z0-9]` runs of a character list, in order. -/
def normTokens (l : List Char) : List (List Char) :=
  normTokensGo l []

/-- Joins runs with single spaces (the residue of `re.sub(..., ' ', s).strip()`). -/
def joinTokens : List (List Char) → List Char
  | [] => []
  | [t] => t
  | t :: t' :: ts => t ++ ' ' :: joinTokens (t' :: ts)

/-- `_norm_team`: `''` for falsy input is subsumed (the empty string has no
runs); otherwise lower, squeeze non-alphanumerics to single spaces, strip. -/
def norm_team (s : String) : String :=
  String.mk (joinTokens (normTokens (s.data.map lowerChar)))

/-- `TEAM_ALIASES`: map from normalized aliases to canonical normalized names,
transcribed verbatim from `src/functions.py`. -/
def TEAM_ALIASES : List (String × String) :=
  [("g2 esports", "g2"),
   ("team vitality", "vitality"),
   ("faze clan", "faze"),
   ("team spirit", "spirit"),
   ("ninjas in pyjamas", "nip"),
   ("natus vincere", "navi"),
   ("na vi", "navi"),
   ("virtus pro", "vp"),
   ("mouz", "mouz"),
   ("astralis", "astralis"),
   ("complexity", "complexity"),
   ("og", "og"),
   ("fnatic", "fnatic"),
   ("ence", "ence"),
   ("big", "big"),
   ("mibr", "mibr"),
   ("9z team", "9z"),
   ("9z", "9z"),
   ("gamerlegion", "gamerlegion"),
   ("cloud9", "c9"),
   ("cloud 9", "c9"),
   ("team liquid", "liquid"),
   ("evil geniuses", "eg"),
   ("pain gaming", "pain"),
   ("virtuoso pro", "vp"),
   ("furia esports", "furia"),
   ("t1 esports", "t1"),
   ("t1", "t1"),
   ("gen g", "gen g"),
   ("gen g esports", "gen g"),
   ("kt rolster", "kt"),
   ("dplus kia", "dk"),
   ("damwon gaming", "dk"),
   ("hanwha life esports", "hle"),
   ("drx", "drx"),
   ("kwangdong freecs", "kdf"),
   ("fredit brion", "brion"),
   ("brion", "brion"),
   ("nongshim redforce", "ns"),
   ("liiv sandbox", "lsb"),
   ("sandbox gaming", "lsb"),
   ("jd gaming", "jdg"),
   ("jingdong gaming", "jdg"),
   ("jdg", "jdg"),
   ("top esports", "tes"),
   ("funplus phoenix", "fpx"),
   ("bilibili gaming", "blg"),
   ("weibo gaming", "weibo"),
   ("edward gaming", "edg"),
   ("invictus gaming", "ig"),
   ("lgd gaming", "lgd"),
   ("oh my god", "omg"),
   ("royal never give up", "rng"),
   ("team we", "we"),
   ("victory five", "v5"),
   ("thunder talk gaming", "tt"),
   ("ultra prime", "up"),
   ("rare atom", "ra"),
   ("anyones legend", "al"),
   ("100 thieves", "100t"),
   ("golden guardians", "gg"),
   ("team solo mid", "tsm"),
   ("immortals", "imt"),
   ("counter logic gaming", "clg"),
   ("mad lions", "mad"),
   ("sk gaming", "sk"),
   ("team bds", "bds"),
   ("koi", "koi")]

/-- `canonical_team`: normalize and map through `TEAM_ALIASES`
(`TEAM_ALIASES.get(norm, norm)`). -/
def canonical_team (name : String) : String :=
  (TEAM_ALIASES.lookup (norm_team name)).getD (norm_team name)

/-- Substring test (`pat in s` on Python strings). -/
def strContains (s pat : String) : Bool :=
  decide (pat.data <:+: s.data)

/-- Python `s.lower()` (ASCII fragment). -/
def lowerStr (s : String) : String :=
  String.mk (s.data.map lowerChar)

/-- `infer_sport_from_pinnacle_event`: keyword classifier over the lowered
event name; `None` for falsy input or when no keyword matches. -/
def infer_sport_from_pinnacle_event (event_name : String) : Option String :=
  if event_name = "" then none
  else
    let s := lowerStr event_name
    if strContains s "league of legends" || strContains s "lol" then some "lol"
    else if strContains s "cs2" || strContains s "counter-strike" ||
        strContains s "counter strike" then some "cs2"
    else none

/-- `infer_sport_from_cs500_event`: identical body in the source. -/
def infer_sport_from_cs500_event (event_name : String) : Option String :=
  if event_name = "" then none
  else
    let s := lowerStr event_name
    if strContains s "league of legends" || strContains s "lol" then some "lol"
    else if strContains s "cs2" || strContains s "counter-strike" ||
        strContains s "counter strike" then some "cs2"
    else none

/-! ## Market matcher (`src/functions.py`, AI branch and fallback branch)

The two similarity backends themselves (a sentence-embedding cosine and
difflib's `SequenceMatcher.ratio`) are external numeric oracles; they are
parameters (`sim`, `ratio`) of the embedding.  Everything the source adds
around them — the empty-name guard, the time bonus, the sport bonus, the
cap, and the selection loop — is embedded literally.  Scores are exact
rationals. -/

/-- A `pinnacle_game` dict as consumed by the matcher: `home_team`,
`away_team`, `event`, and a `start_time` that is `none` when the key is
missing or the ISO timestamp fails to parse, otherwise epoch seconds. -/
structure PinGame where
  home_team : String
  away_team : String
  event : String
  start_time : Option ℤ
deriving DecidableEq

/-- A `cs500_game` dict as consumed by the matcher. -/
structure Cs500Game where
  home_team : String
  away_team : String
  event_name : String
  start_time : Option ℤ
deriving DecidableEq

/-- Python's binary numeric `min` (kept kernel-reducible; agrees with `⊓`,
see `pyMin_eq_min`). -/
def pyMin (a b : ℚ) : ℚ := if a ≤ b then a else b

/-- Python's binary numeric `max` (kept kernel-reducible; agrees with `⊔`,
see `pyMax_eq_max`). -/
def pyMax (a b : ℚ) : ℚ := if a ≥ b then a else b

/-- Embedding-backend `team_similarity`: `0.0` if either name is empty,
otherwise the backend value `sim t1 t2` (cosine similarity of the sentence
embeddings, abstracted). -/
def team_similarity_ai (sim : String → String → ℚ) (t1 t2 : String) : ℚ :=
  if t1 = "" ∨ t2 = "" then 0 else sim t1 t2

/-- The `time_score` block of `ai_match_score`: `0.2` when the start times
are within one hour of each other, `0.1` within two hours, else `0`;
`0` when either value is absent/unparseable. -/
def timeScore (p : PinGame) (c : Cs500Game) : ℚ :=
  match p.start_time, c.start_time with
  | some tp, some tc =>
      if |tp - tc| < 3600 then 2/10
      else if |tp - tc| < 7200 then 1/10
      else 0
  | _, _ => 0

/-- The `sport_score` block of `ai_match_score`: `sport_score = 0.0`, then
`0.1` when `p_sport == c_sport` (note: the source compares the two
`Option`al tags directly, so two `None`s also score the bonus). -/
def sportScore (p : PinGame) (c : Cs500Game) : ℚ :=
  if infer_sport_from_pinnacle_event p.event =
      infer_sport_from_cs500_event c.event_name then 1/10
  else 0

/-- Embedding-backend `ai_match_score`:
`team_score = (home_sim + away_sim) / 2`;
`total_score = team_score + time_score + sport_score`; capped by
`min(1.0, total_score)`. -/
def ai_match_score (sim : String → String → ℚ) (p : PinGame) (c : Cs500Game) : ℚ :=
  let home_sim := team_similarity_ai sim p.home_team c.home_team
  let away_sim := team_similarity_ai sim p.away_team c.away_team
  let time_score := timeScore p c
  let sport_score := sportScore p c
  let team_score := (home_sim + away_sim) / 2
  let total_score := team_score + time_score + sport_score
  pyMin 1 total_score

/-- Fallback-backend `team_similarity`: `SequenceMatcher(None, t1.lower(),
t2.lower()).ratio()`, with the ratio oracle abstracted as `ratio`. -/
def team_similarity_fb (ratio : String → String → ℚ) (t1 t2 : String) : ℚ :=
  ratio (lowerStr t1) (lowerStr t2)

/-- Fallback-backend `ai_match_score`: just the mean of the two name
similarities (no time bonus, no sport bonus, no cap). -/
def ai_match_score_fb (ratio : String → String → ℚ) (p : PinGame) (c : Cs500Game) : ℚ :=
  let home_sim := team_similarity_fb ratio p.home_team c.home_team
  let away_sim := team_similarity_fb ratio p.away_team c.away_team
  (home_sim + away_sim) / 2

/-- One iteration of the `find_best_match` loop: the candidate replaces the
running best exactly when `score > best_score and score > threshold`. -/
def bestStep (score : Cs500Game → ℚ) (threshold : ℚ)
    (best : Option Cs500Game × ℚ) (g : Cs500Game) : Option Cs500Game × ℚ :=
  if score g > best.2 ∧ score g > threshold then (some g, score g) else best

/-- The `find_best_match` loop body shared by both backends, started from
`best_match = None`, `best_score = 0.0`. -/
def findBestMatchAux (score : Cs500Game → ℚ) (threshold : ℚ)
    (cs500_games : List Cs500Game) : Option Cs500Game × ℚ :=
  cs500_games.foldl (bestStep score threshold) (none, 0)

/-- Embedding-backend `find_best_match`: threshold `0.6`
("Threshold for good enough"). -/
def find_best_match (sim : String → String → ℚ) (p : PinGame)
    (cs500_games : List Cs500Game) : Option Cs500Game × ℚ :=
  findBestMatchAux (ai_match_score sim p) (6/10) cs500_games

/-- Fallback-backend `find_best_match`: threshold `0.7`. -/
def find_best_match_fb (ratio : String → String → ℚ) (p : PinGame)
    (cs500_games : List Cs500Game) : Option Cs500Game × ℚ :=
  findBestMatchAux (ai_match_score_fb ratio p) (7/10) cs500_games

/-- The score formula exactly as claim C4 words it (`Modelled from the
spec`, for comparison against `ai_match_score`): mean of the two name
similarities, plus the time bonus, plus `0.1` exactly when both inferred
sport tags agree *and are non-null*, capped at `1.0`. -/
def claimedMatchScore (sim : String → String → ℚ) (p : PinGame) (c : Cs500Game) : ℚ :=
  let home_sim := team_similarity_ai sim p.home_team c.home_team
  let away_sim := team_similarity_ai sim p.away_team c.away_team
  let sport_bonus :=
    match infer_sport_from_pinnacle_event p.event,
        infer_sport_from_cs500_event c.event_name with
    | some sp, some sc => if sp = sc then (1 : ℚ)/10 else 0
    | _, _ => 0
  pyMin 1 ((home_sim + away_sim) / 2 + timeScore p c + sport_bonus)

/-! ## Market store (`src/database.py`)

Rows are records, tables are lists, `NULL` is `none`, timestamps are epoch
seconds (`ℤ`), odds/stakes are exact rationals.  `scraped_at`/`placed_at`
bookkeeping timestamps are never read by any operation modelled here and are
elided.  Python `round(x, n)` display rounding inside read projections is
elided: in the source every branch condition and every `best_ev_pct` /
`best_bet` assignment uses the *unrounded* local variables, so no modelled
behavior depends on it. -/

/-- A `pinnacle_markets` row. -/
structure PinnacleRow where
  id : String
  event : String
  sport : Option String
  home_team : String
  away_team : String
  home_fair_odds : ℚ
  away_fair_odds : ℚ
  home_mult_odds : Option ℚ
  away_mult_odds : Option ℚ
  home_fair_prob : Option ℚ
  away_fair_prob : Option ℚ
  home_mult_prob : Option ℚ
  away_mult_prob : Option ℚ
  home_closing_odds : Option ℚ
  away_closing_odds : Option ℚ
  closing_captured_at : Option ℤ
  start_time : Option ℤ
  is_active : Bool
deriving DecidableEq

/-- A `cs500_markets` row (fields the modelled operations read). -/
structure Cs500Row where
  match_id : String
  event_name : String
  sport : Option String
  home_team : String
  away_team : String
  home_odds : ℚ
  away_odds : ℚ
  start_time : Option ℤ
  status : Option String
  is_active : Bool
deriving DecidableEq

/-- A `match_mappings` row. -/
structure MappingRow where
  pinnacle_id : String
  cs500_match_id : String
  confidence_score : ℚ
deriving DecidableEq

/-- A `bets` row. -/
structure BetRow where
  id : ℕ
  pinnacle_id : String
  event : String
  sport : Option String
  home_team : String
  away_team : String
  bet_side : String
  bet_team : String
  odds : ℚ
  stake : ℚ
  expected_value : ℚ
  ev_percentage : ℚ
  fair_odds : ℚ
  potential_return : ℚ
  potential_profit : ℚ
  closing_odds : Option ℚ
  clv : Option ℚ
  clv_percentage : Option ℚ
  start_time : Option ℤ
  status : String
  result : Option String
  actual_return : Option ℚ
  notes : Option String
deriving DecidableEq

/-- The database state: the four tables the modelled operations touch. -/
structure DBState where
  pinnacle : List PinnacleRow
  cs500 : List Cs500Row
  mappings : List MappingRow
  bets : List BetRow
deriving DecidableEq

/-- `Database._infer_sport` (same keyword classifier as the module-level
inference helpers). -/
def db_infer_sport (event_name : String) : Option String :=
  if event_name = "" then none
  else
    let s := lowerStr event_name
    if strContains s "league of legends" || strContains s "lol" then some "lol"
    else if strContains s "cs2" || strContains s "counter-strike" ||
        strContains s "counter strike" then some "cs2"
    else none

/-- A scraped market dict as passed to `store_pinnacle_markets`
(`market.get(...)` optional fields are `Option`). -/
structure MarketIn where
  id : String
  event : String
  home_team : String
  away_team : String
  home_fair_odds : ℚ
  away_fair_odds : ℚ
  home_mult_odds : Option ℚ
  away_mult_odds : Option ℚ
  home_fair_prob : Option ℚ
  away_fair_prob : Option ℚ
  home_mult_prob : Option ℚ
  away_mult_prob : Option ℚ
  start_time : Option ℤ
deriving DecidableEq

/-- The row inserted by the `INSERT OR REPLACE INTO pinnacle_markets`
statement: exactly the listed columns, with `is_active = 1`; the columns
*not* listed (`home_closing_odds`, `away_closing_odds`,
`closing_captured_at`) take their column defaults, i.e. `NULL` — SQLite's
`OR REPLACE` deletes the conflicting old row, it does not merge into it. -/
def pinnacleRowOf (m : MarketIn) : PinnacleRow :=
  { id := m.id
    event := m.event
    sport := db_infer_sport m.event
    home_team := m.home_team
    away_team := m.away_team
    home_fair_odds := m.home_fair_odds
    away_fair_odds := m.away_fair_odds
    home_mult_odds := m.home_mult_odds
    away_mult_odds := m.away_mult_odds
    home_fair_prob := m.home_fair_prob
    away_fair_prob := m.away_fair_prob
    home_mult_prob := m.home_mult_prob
    away_mult_prob := m.away_mult_prob
    home_closing_odds := none
    away_closing_odds := none
    closing_captured_at := none
    start_time := m.start_time
    is_active := true }

/-- `INSERT OR REPLACE` keyed on the primary key `id`: drop any row with the
same id, append the fresh row. -/
def insertOrReplacePinnacle (t : List PinnacleRow) (m : MarketIn) : List PinnacleRow :=
  (t.filter fun r => r.id ≠ m.id) ++ [pinnacleRowOf m]

/-- `Database.store_pinnacle_markets`: mark every existing row inactive
(`UPDATE pinnacle_markets SET is_active = 0`), then `INSERT OR REPLACE` each
scraped market as an active row. -/
def store_pinnacle_markets (markets : List MarketIn) (db : DBState) : DBState :=
  let deact := db.pinnacle.map fun r => { r with is_active := false }
  { db with pinnacle := markets.foldl insertOrReplacePinnacle deact }

/-- Python numeric/`None` truthiness (`x if x else y`, `if not x`):
`None` and `0` are falsy. -/
def pyTruthy : Option ℚ → Bool
  | none => false
  | some v => v != 0

/-- `x if x else default` on an optional odds value. -/
def orFair (x : Option ℚ) (default : ℚ) : ℚ :=
  match x with
  | some v => if v = 0 then default else v
  | none => default

/-- The `SELECT` guard of `capture_closing_lines`: active, has a start time,
both closing odds still `NULL`, and `datetime(start_time) <=
datetime('now', '+5 minutes')`. -/
def closingEligible (now : ℤ) (r : PinnacleRow) : Bool :=
  r.is_active && r.home_closing_odds.isNone && r.away_closing_odds.isNone &&
    (match r.start_time with
     | some t => decide (t ≤ now + 300)
     | none => false)

/-- The `UPDATE` of `capture_closing_lines`: closing odds become the
multiplicative odds if truthy else the fair odds, and the capture timestamp
is stamped with the current time. -/
def captureRow (now : ℤ) (r : PinnacleRow) : PinnacleRow :=
  { r with
    home_closing_odds := some (orFair r.home_mult_odds r.home_fair_odds)
    away_closing_odds := some (orFair r.away_mult_odds r.away_fair_odds)
    closing_captured_at := some now }

/-- `Database.capture_closing_lines`: select the eligible markets, update
each in place, return how many were updated (and the new state). -/
def capture_closing_lines (now : ℤ) (db : DBState) : ℕ × DBState :=
  let count := (db.pinnacle.filter (closingEligible now)).length
  (count,
   { db with
     pinnacle := db.pinnacle.map fun r =>
       if closingEligible now r then captureRow now r else r })

/-- A bet dict as passed to `place_bet`. -/
structure BetIn where
  pinnacle_id : String
  event : String
  sport : Option String
  home_team : String
  away_team : String
  bet_side : String
  bet_team : String
  odds : ℚ
  stake : ℚ
  expected_value : ℚ
  ev_percentage : ℚ
  fair_odds : ℚ
  potential_return : ℚ
  potential_profit : ℚ
  start_time : Option ℤ
  notes : Option String
deriving DecidableEq

/-- The next `AUTOINCREMENT` rowid for the bets table. -/
def nextBetId (db : DBState) : ℕ :=
  (db.bets.map BetRow.id).foldl max 0 + 1

/-- `Database.place_bet`: `INSERT INTO bets (...)` and return
`cursor.lastrowid`.  The bets table declares
`FOREIGN KEY (pinnacle_id) REFERENCES pinnacle_markets(id)`, but
`get_connection` never issues `PRAGMA foreign_keys = ON` and sqlite3 leaves
foreign-key enforcement off by default, so the insert succeeds whether or
not the referenced market exists — that actual (unchecked) behavior is what
is embedded here. -/
def place_bet (bet : BetIn) (db : DBState) : ℕ × DBState :=
  let rowid := nextBetId db
  (rowid,
   { db with
     bets := db.bets ++
       [{ id := rowid
          pinnacle_id := bet.pinnacle_id
          event := bet.event
          sport := bet.sport
          home_team := bet.home_team
          away_team := bet.away_team
          bet_side := bet.bet_side
          bet_team := bet.bet_team
          odds := bet.odds
          stake := bet.stake
          expected_value := bet.expected_value
          ev_percentage := bet.ev_percentage
          fair_odds := bet.fair_odds
          potential_return := bet.potential_return
          potential_profit := bet.potential_profit
          closing_odds := none
          clv := none
          clv_percentage := none
          start_time := bet.start_time
          status := "pending"
          result := none
          actual_return := none
          notes := bet.notes }] })

/-- `Database.update_bet_clv`: join the bet to its reference market, read
the closing odds of the bet's side, bail out with `False` when the join is
empty or the closing odds are falsy (`if not closing_odds`), otherwise
write `closing_odds`, `clv = (1/closing - 1/bet_odds) * 100` and
`clv_percentage = (bet_odds - closing) / closing * 100` onto the bet and
return `True`. -/
def update_bet_clv (bet_id : ℕ) (db : DBState) : Bool × DBState :=
  match db.bets.find? fun b => b.id = bet_id with
  | none => (false, db)
  | some b =>
    match db.pinnacle.find? fun p => p.id = b.pinnacle_id with
    | none => (false, db)
    | some p =>
      let closing_odds :=
        if b.bet_side = "home" then p.home_closing_odds else p.away_closing_odds
      if pyTruthy closing_odds then
        let c := closing_odds.getD 0
        let clv_pct := (b.odds - c) / c * 100
        let bet_prob := 1 / b.odds
        let closing_prob := 1 / c
        let clv_prob_diff := (closing_prob - bet_prob) * 100
        (true,
         { db with
           bets := db.bets.map fun x =>
             if x.id = bet_id then
               { x with
                 closing_odds := some c
                 clv := some clv_prob_diff
                 clv_percentage := some clv_pct }
             else x })
      else (false, db)

/-- One output row of `Database.get_matched_markets` (EV projection).
Unrounded values are carried; see the section comment on rounding. -/
structure MatchedRow where
  pinnacle_id : String
  event : String
  sport : Option String
  pinnacle_home : String
  pinnacle_away : String
  home_fair : ℚ
  away_fair : ℚ
  home_mult : Option ℚ
  away_mult : Option ℚ
  start_time : Option ℤ
  cs500_id : String
  cs500_home : String
  cs500_away : String
  cs500_home_odds : ℚ
  cs500_away_odds : ℚ
  confidence_score : ℚ
  home_ev_pct : ℚ
  away_ev_pct : ℚ
  home_mult_ev_pct : ℚ
  away_mult_ev_pct : ℚ
  best_bet : Option String
  best_ev_pct : ℚ
deriving DecidableEq

/-- The per-row computation of `get_matched_markets`: power-method EVs from
the stored fair odds against the retail odds of the same side; the
multiplicative-method EVs when both mult odds are truthy (else copied from
the power values); and the best-bet block:
`if home_ev_pct > 0 or away_ev_pct > 0` pick the side with
`home_ev_pct > away_ev_pct` (ties fall to `'away'`), otherwise
`best_bet = None` and `best_ev_pct = max(home_ev_pct, away_ev_pct)`. -/
def computeMatchedRow (p : PinnacleRow) (c : Cs500Row) (conf : ℚ) : MatchedRow :=
  let home_fair_prob := 1 / p.home_fair_odds
  let away_fair_prob := 1 / p.away_fair_odds
  let home_ev := home_fair_prob * c.home_odds - 1
  let away_ev := away_fair_prob * c.away_odds - 1
  let home_ev_pct := home_ev * 100
  let away_ev_pct := away_ev * 100
  let mult_pcts :=
    if pyTruthy p.home_mult_odds && pyTruthy p.away_mult_odds then
      ((1 / p.home_mult_odds.getD 0 * c.home_odds - 1) * 100,
       (1 / p.away_mult_odds.getD 0 * c.away_odds - 1) * 100)
    else (home_ev_pct, away_ev_pct)
  let best :=
    if home_ev_pct > 0 ∨ away_ev_pct > 0 then
      if home_ev_pct > away_ev_pct then (some "home", home_ev_pct)
      else (some "away", away_ev_pct)
    else (none, pyMax home_ev_pct away_ev_pct)
  { pinnacle_id := p.id
    event := p.event
    sport := p.sport
    pinnacle_home := p.home_team
    pinnacle_away := p.away_team
    home_fair := p.home_fair_odds
    away_fair := p.away_fair_odds
    home_mult := p.home_mult_odds
    away_mult := p.away_mult_odds
    start_time := p.start_time
    cs500_id := c.match_id
    cs500_home := c.home_team
    cs500_away := c.away_team
    cs500_home_odds := c.home_odds
    cs500_away_odds := c.away_odds
    confidence_score := conf
    home_ev_pct := home_ev_pct
    away_ev_pct := away_ev_pct
    home_mult_ev_pct := mult_pcts.1
    away_mult_ev_pct := mult_pcts.2
    best_bet := best.1
    best_ev_pct := best.2 }

/-- `Database.get_matched_markets`: inner join of `match_mappings` with the
active rows of `pinnacle_markets` and `cs500_markets` on the two ids, each
joined row run through the EV computation (`ORDER BY` is irrelevant to the
claims and elided). -/
def get_matched_markets (db : DBState) : List MatchedRow :=
  db.mappings.filterMap fun m =>
    match db.pinnacle.find? fun p => p.id = m.pinnacle_id with
    | none => none
    | some p =>
      match db.cs500.find? fun c => c.match_id = m.cs500_match_id with
      | none => none
      | some c =>
        if p.is_active && c.is_active then
          some (computeMatchedRow p c m.confidence_score)
        else none

/-! ### Concrete fixtures

Closed inputs used by witnesses, counterexamples and code-bug evaluations. -/

/-- A trivial similarity backend (its value is irrelevant wherever the
source's own empty-name guard fires). -/
def simZero : String → String → ℚ := fun _ _ => 0

/-- A reference game with every field empty/absent. -/
def pEmpty : PinGame :=
  { home_team := "", away_team := "", event := "", start_time := none }

/-- A retail game with every field empty/absent. -/
def cEmpty : Cs500Game :=
  { home_team := "", away_team := "", event_name := "", start_time := none }

/-- A scraped market dict for market id `m1`. -/
def mIn1 : MarketIn :=
  { id := "m1", event := "", home_team := "G2", away_team := "Vitality",
    home_fair_odds := 19/10, away_fair_odds := 2,
    home_mult_odds := none, away_mult_odds := none,
    home_fair_prob := none, away_fair_prob := none,
    home_mult_prob := none, away_mult_prob := none,
    start_time := some 1000 }

/-- A store holding exactly the freshly scraped `m1`. -/
def dbC1 : DBState :=
  { pinnacle := [pinnacleRowOf mIn1], cs500 := [], mappings := [], bets := [] }

/-- A bet dict referencing the nonexistent market id `ghost`. -/
def betIn8 : BetIn :=
  { pinnacle_id := "ghost", event := "E", sport := none,
    home_team := "A", away_team := "B", bet_side := "home", bet_team := "A",
    odds := 2, stake := 10, expected_value := 1/2, ev_percentage := 5,
    fair_odds := 19/10, potential_return := 20, potential_profit := 10,
    start_time := none, notes := none }

/-- A completely empty store. -/
def dbC8 : DBState := { pinnacle := [], cs500 := [], mappings := [], bets := [] }

/-- A reference market whose home closing odds are captured (`2.0`) and whose
away closing odds are still `NULL`. -/
def m6 : PinnacleRow :=
  { id := "m1", event := "", sport := none,
    home_team := "G2", away_team := "Vitality",
    home_fair_odds := 183/100, away_fair_odds := 21/10,
    home_mult_odds := none, away_mult_odds := none,
    home_fair_prob := none, away_fair_prob := none,
    home_mult_prob := none, away_mult_prob := none,
    home_closing_odds := some 2, away_closing_odds := none,
    closing_captured_at := some 900, start_time := some 1000,
    is_active := true }

/-- A home bet at odds `2.10` on `m1`. -/
def bet61 : BetRow :=
  { id := 1, pinnacle_id := "m1", event := "", sport := none,
    home_team := "G2", away_team := "Vitality",
    bet_side := "home", bet_team := "G2",
    odds := 21/10, stake := 10, expected_value := 1/2, ev_percentage := 5,
    fair_odds := 2, potential_return := 21, potential_profit := 11,
    closing_odds := none, clv := none, clv_percentage := none,
    start_time := some 1000, status := "pending", result := none,
    actual_return := none, notes := none }

/-- A home bet at odds `1.90` on `m1`. -/
def bet62 : BetRow := { bet61 with id := 2, odds := 19/10 }

/-- An away bet on `m1` (whose away closing odds are `NULL`). -/
def bet63 : BetRow := { bet61 with id := 3, bet_side := "away", bet_team := "Vitality" }

/-- Store with the three bets of the CLV scenario. -/
def db6 : DBState :=
  { pinnacle := [m6], cs500 := [], mappings := [], bets := [bet61, bet62, bet63] }

/-- Bet 1 after CLV is computed:
`clv = (1/2 - 1/2.1) * 100 = 50/21 ≈ 2.38`,
`clv_percentage = (2.1 - 2)/2 * 100 = 5`. -/
def bet61after : BetRow :=
  { bet61 with
    closing_odds := some 2
    clv := some (50/21)
    clv_percentage := some 5 }

/-- Store `db6` with bet 1 updated as above. -/
def db6after : DBState :=
  { db6 with bets := [bet61after, bet62, bet63] }

/-- An active reference market with power-method fair odds `2.0 / 2.0`. -/
def pEV : PinnacleRow :=
  { id := "p1", event := "", sport := none,
    home_team := "G2", away_team := "Vitality",
    home_fair_odds := 2, away_fair_odds := 2,
    home_mult_odds := none, away_mult_odds := none,
    home_fair_prob := some (1/2), away_fair_prob := some (1/2),
    home_mult_prob := none, away_mult_prob := none,
    home_closing_odds := none, away_closing_odds := none,
    closing_captured_at := none, start_time := some 1000,
    is_active := true }

/-- An active retail market at odds `2.10 / 1.90`. -/
def cEV : Cs500Row :=
  { match_id := "c1", event_name := "", sport := none,
    home_team := "G2 Esports", away_team := "Team Vitality",
    home_odds := 21/10, away_odds := 19/10,
    start_time := some 1000, status := none, is_active := true }

/-- Store with one mapped pair; home EV is `+5%`, away EV is `-5%`. -/
def dbEV : DBState :=
  { pinnacle := [pEV], cs500 := [cEV],
    mappings := [{ pinnacle_id := "p1", cs500_match_id := "c1",
                   confidence_score := 9/10 }],
    bets := [] }

/-- The single EV-projection row of `dbEV`. -/
def rowEV : MatchedRow := computeMatchedRow pEV cEV (9/10)

/-! ## Theorems

Helper lemmas first, then one theorem per claim (with witnesses where the
claim theorem carries hypotheses). -/

/-- Both devig methods end in the same normalize-then-invert shape; this is
the shared arithmetic: inverting the fair odds recovers fair probabilities
that sum to exactly 1. -/
theorem inv_fair_odds_sum (q1 q2 : ℝ) (h1 : 0 < q1) (h2 : 0 < q2) :
    1 / (1 / (q1 / (q1 + q2))) + 1 / (1 / (q2 / (q1 + q2))) = 1 := by
  rw [one_div_one_div, one_div_one_div, div_add_div_same,
    div_self (by positivity)]

/-- Shared facts about the normalization step `q ↦ q / (q1 + q2)`:
each fair probability is strictly between 0 and 1, and the fair odds
(its inverse) preserve the order of the unnormalized weights. -/
theorem fair_prob_bounds_and_order (q1 q2 : ℝ) (h1 : 0 < q1) (h2 : 0 < q2) :
    0 < q1 / (q1 + q2) ∧ q1 / (q1 + q2) < 1 ∧
      (q2 < q1 → 1 / (q1 / (q1 + q2)) < 1 / (q2 / (q1 + q2))) := by
  have hs : 0 < q1 + q2 := by positivity
  refine ⟨by positivity, (div_lt_one hs).mpr (by linarith), fun hlt => ?_⟩
  have hfrac : q2 / (q1 + q2) < q1 / (q1 + q2) := by gcongr
  exact one_div_lt_one_div_of_lt (by positivity) hfrac

/-- C2: for all positive decimal odds `(h, a)`, the implied fair
probabilities of `multiplicative_devig` and of `power_method_devig` with its
default exponent `k = 1.07` — i.e. `1/fair_home` and `1/fair_away` — sum to
exactly `1`, hence in particular to `1.0` within tolerance `1e-6`. -/
theorem C2_devig_fair_probs_sum_to_one (h a : ℝ) (hh : 0 < h) (ha : 0 < a) :
    (1 / (multiplicative_devig h a).1 + 1 / (multiplicative_devig h a).2 = 1 ∧
      |1 / (multiplicative_devig h a).1 + 1 / (multiplicative_devig h a).2 - 1|
        ≤ 1 / 1000000) ∧
    (1 / (power_method_devig h a).1 + 1 / (power_method_devig h a).2 = 1 ∧
      |1 / (power_method_devig h a).1 + 1 / (power_method_devig h a).2 - 1|
        ≤ 1 / 1000000) := by
  have h1 : (0 : ℝ) < 1 / h := by positivity
  have h2 : (0 : ℝ) < 1 / a := by positivity
  have hm : 1 / (multiplicative_devig h a).1 + 1 / (multiplicative_devig h a).2 = 1 := by
    simp only [multiplicative_devig, mult_fair_probs]
    exact inv_fair_odds_sum _ _ h1 h2
  have hp : 1 / (power_method_devig h a).1 + 1 / (power_method_devig h a).2 = 1 := by
    simp only [power_method_devig, power_fair_probs]
    exact inv_fair_odds_sum _ _ (Real.rpow_pos_of_pos h1 _) (Real.rpow_pos_of_pos h2 _)
  refine ⟨⟨hm, ?_⟩, ⟨hp, ?_⟩⟩
  · rw [hm]; norm_num
  · rw [hp]; norm_num

/-- Witness for C2 at the concrete odds pair `(2, 2)`. -/
theorem C2_devig_fair_probs_sum_to_one_witness :
    (0 : ℝ) < 2 ∧
      ((1 / (multiplicative_devig 2 2).1 + 1 / (multiplicative_devig 2 2).2 = 1 ∧
        |1 / (multiplicative_devig 2 2).1 + 1 / (multiplicative_devig 2 2).2 - 1|
          ≤ 1 / 1000000) ∧
       (1 / (power_method_devig 2 2).1 + 1 / (power_method_devig 2 2).2 = 1 ∧
        |1 / (power_method_devig 2 2).1 + 1 / (power_method_devig 2 2).2 - 1|
          ≤ 1 / 1000000)) :=
  ⟨by norm_num, C2_devig_fair_probs_sum_to_one 2 2 (by norm_num) (by norm_num)⟩

/-- C9: with decimal odds `1 < h`, `1 < a`, both devig methods keep the
favorite the favorite — if `h < a` the returned `fair_home` odds stay below
the `fair_away` odds, for the multiplicative method and for the power method
with any exponent `k > 0` — and each method's internal fair probabilities
lie strictly between 0 and 1. -/
theorem C9_devig_preserves_favorite (h a k : ℝ) (hh : 1 < h) (ha : 1 < a)
    (hk : 0 < k) :
    (h < a → (multiplicative_devig h a).1 < (multiplicative_devig h a).2) ∧
    (h < a → (power_method_devig h a k).1 < (power_method_devig h a k).2) ∧
    (0 < (mult_fair_probs h a).1 ∧ (mult_fair_probs h a).1 < 1 ∧
      0 < (mult_fair_probs h a).2 ∧ (mult_fair_probs h a).2 < 1) ∧
    (0 < (power_fair_probs h a k).1 ∧ (power_fair_probs h a k).1 < 1 ∧
      0 < (power_fair_probs h a k).2 ∧ (power_fair_probs h a k).2 < 1) := by
  have h0 : (0 : ℝ) < h := lt_trans one_pos hh
  have a0 : (0 : ℝ) < a := lt_trans one_pos ha
  have q1 : (0 : ℝ) < 1 / h := by positivity
  have q2 : (0 : ℝ) < 1 / a := by positivity
  have w1 : (0 : ℝ) < (1 / h) ^ k := Real.rpow_pos_of_pos q1 k
  have w2 : (0 : ℝ) < (1 / a) ^ k := Real.rpow_pos_of_pos q2 k
  simp only [multiplicative_devig, mult_fair_probs, power_method_devig,
    power_fair_probs]
  refine ⟨fun hlt => ?_, fun hlt => ?_, ?_, ?_⟩
  · exact (fair_prob_bounds_and_order (1 / h) (1 / a) q1 q2).2.2
      (one_div_lt_one_div_of_lt h0 hlt)
  · exact (fair_prob_bounds_and_order ((1 / h) ^ k) ((1 / a) ^ k) w1 w2).2.2
      (Real.rpow_lt_rpow q2.le (one_div_lt_one_div_of_lt h0 hlt) hk)
  · have hsum : (0 : ℝ) < 1 / h + 1 / a := by positivity
    refine ⟨by positivity, (div_lt_one hsum).mpr (by linarith), by positivity,
      (div_lt_one hsum).mpr (by linarith)⟩
  · have hsum : (0 : ℝ) < (1 / h) ^ k + (1 / a) ^ k := by positivity
    refine ⟨by positivity, (div_lt_one hsum).mpr (by linarith), by positivity,
      (div_lt_one hsum).mpr (by linarith)⟩

/-- Witness for C9 at `h = 2`, `a = 3`, `k = 1`. -/
theorem C9_devig_preserves_favorite_witness :
    ((1 : ℝ) < 2 ∧ (1 : ℝ) < 3 ∧ (0 : ℝ) < 1) ∧
      ((2 : ℝ) < 3 → (multiplicative_devig 2 3).1 < (multiplicative_devig 2 3).2) ∧
      ((2 : ℝ) < 3 → (power_method_devig 2 3 1).1 < (power_method_devig 2 3 1).2) ∧
      (0 < (mult_fair_probs 2 3).1 ∧ (mult_fair_probs 2 3).1 < 1 ∧
        0 < (mult_fair_probs 2 3).2 ∧ (mult_fair_probs 2 3).2 < 1) ∧
      (0 < (power_fair_probs 2 3 1).1 ∧ (power_fair_probs 2 3 1).1 < 1 ∧
        0 < (power_fair_probs 2 3 1).2 ∧ (power_fair_probs 2 3 1).2 < 1) :=
  ⟨⟨by norm_num, by norm_num, by norm_num⟩,
    C9_devig_preserves_favorite 2 3 1 (by norm_num) (by norm_num) (by norm_num)⟩

/-- The selection step leaves the running best untouched unless the
candidate's score strictly beats both the running best and the threshold. -/
theorem bestStep_unchanged (score : Cs500Game → ℚ) (thr : ℚ)
    (best : Option Cs500Game × ℚ) (g : Cs500Game)
    (hne : bestStep score thr best g ≠ best) :
    score g > best.2 ∧ score g > thr := by
  by_cases hcond : score g > best.2 ∧ score g > thr
  · exact hcond
  · exact absurd (by simp [bestStep, hcond]) hne

/-- If no candidate's score clears the threshold, the loop never leaves its
initial `(None, 0.0)` accumulator. -/
theorem findBestMatchAux_none (score : Cs500Game → ℚ) (thr : ℚ)
    (gs : List Cs500Game) (h : ∀ g ∈ gs, ¬ score g > thr) :
    findBestMatchAux score thr gs = (none, 0) := by
  induction gs with
  | nil => rfl
  | cons g gs ih =>
    have hstep : bestStep score thr (none, 0) g = (none, 0) := by
      have := h g (List.mem_cons_self g gs)
      simp [bestStep]
      intro _
      simpa using this
    show List.foldl (bestStep score thr) (bestStep score thr (none, 0) g) gs = (none, 0)
    rw [hstep]
    exact ih fun g' hg' => h g' (List.mem_cons_of_mem g hg')

/-- Loop invariant: a returned best match came from the candidate list and
its score clears the threshold (unless it was already in the accumulator). -/
theorem foldl_bestStep_some (score : Cs500Game → ℚ) (thr : ℚ)
    (gs : List Cs500Game) :
    ∀ (acc : Option Cs500Game × ℚ) (m : Cs500Game),
      (List.foldl (bestStep score thr) acc gs).1 = some m →
      (m ∈ gs ∧ score m > thr) ∨ acc.1 = some m := by
  induction gs with
  | nil => intro acc m h; exact Or.inr h
  | cons g gs ih =>
    intro acc m h
    rcases ih (bestStep score thr acc g) m h with hin | hacc
    · exact Or.inl ⟨List.mem_cons_of_mem g hin.1, hin.2⟩
    · by_cases hcond : score g > acc.2 ∧ score g > thr
      · rw [show bestStep score thr acc g = (some g, score g) from by
          simp [bestStep, hcond]] at hacc
        obtain rfl : g = m := by simpa using hacc
        exact Or.inl ⟨List.mem_cons_self g gs, hcond.2⟩
      · rw [show bestStep score thr acc g = acc from by simp [bestStep, hcond]] at hacc
        exact Or.inr hacc

/-- C3: under either backend, a candidate is accepted only if its score is
strictly greater than the running best *and* strictly greater than the
backend's threshold (`0.6` embedding, `0.7` fallback); any returned match
comes from the candidate list with a score above the threshold; and if no
candidate clears the threshold the result is no match. -/
theorem C3_find_best_match_selection (sim ratio : String → String → ℚ)
    (p : PinGame) (gs : List Cs500Game) :
    (∀ (best : Option Cs500Game × ℚ) (g : Cs500Game),
        bestStep (ai_match_score sim p) (6/10) best g ≠ best →
        ai_match_score sim p g > best.2 ∧ ai_match_score sim p g > 6/10) ∧
    ((∀ g ∈ gs, ai_match_score sim p g ≤ 6/10) →
        (find_best_match sim p gs).1 = none) ∧
    (∀ m, (find_best_match sim p gs).1 = some m →
        m ∈ gs ∧ ai_match_score sim p m > 6/10) ∧
    (∀ (best : Option Cs500Game × ℚ) (g : Cs500Game),
        bestStep (ai_match_score_fb ratio p) (7/10) best g ≠ best →
        ai_match_score_fb ratio p g > best.2 ∧ ai_match_score_fb ratio p g > 7/10) ∧
    ((∀ g ∈ gs, ai_match_score_fb ratio p g ≤ 7/10) →
        (find_best_match_fb ratio p gs).1 = none) ∧
    (∀ m, (find_best_match_fb ratio p gs).1 = some m →
        m ∈ gs ∧ ai_match_score_fb ratio p m > 7/10) := by
  refine ⟨bestStep_unchanged _ _, fun h => ?_, fun m hm => ?_,
    bestStep_unchanged _ _, fun h => ?_, fun m hm => ?_⟩
  · rw [find_best_match,
      findBestMatchAux_none _ _ _ fun g hg => not_lt.mpr (h g hg)]
  · rcases foldl_bestStep_some (ai_match_score sim p) (6/10) gs (none, 0) m hm with
      hin | hacc
    · exact hin
    · simp at hacc
  · rw [find_best_match_fb,
      findBestMatchAux_none _ _ _ fun g hg => not_lt.mpr (h g hg)]
  · rcases foldl_bestStep_some (ai_match_score_fb ratio p) (7/10) gs (none, 0) m hm with
      hin | hacc
    · exact hin
    · simp at hacc

/-- Witness for C3: the lone candidate scores `0.1 ≤ 0.6`, so the embedding
backend returns no match. -/
theorem C3_find_best_match_selection_witness :
    ai_match_score simZero pEmpty cEmpty ≤ 6/10 ∧
      (find_best_match simZero pEmpty [cEmpty]).1 = none :=
  ⟨by with_unfolding_all decide,
    (C3_find_best_match_selection simZero simZero pEmpty [cEmpty]).2.1
      (by with_unfolding_all decide)⟩

/-- Counterexample to C4 as stated: with both event names empty, both
inferred sport tags are `None`, yet the source still awards the `0.1` sport
bonus (`None == None` in Python), while the claimed formula — bonus only
when the tags agree *and are non-null* — yields `0`.  Both team names are
empty, so the source's own empty-name guard makes the similarity backend
irrelevant here. -/
theorem C4_match_score_counterexample :
    ai_match_score simZero pEmpty cEmpty = 1/10 ∧
      claimedMatchScore simZero pEmpty cEmpty = 0 ∧
      ai_match_score simZero pEmpty cEmpty ≠ claimedMatchScore simZero pEmpty cEmpty := by
  refine ⟨?_, ?_, ?_⟩ <;> with_unfolding_all decide

/-- C4 (amended): under the embedding backend the score is the mean of the
home/away similarities (each `0` if either name is empty) plus the
start-time bonus plus `0.1` whenever the two inferred sport tags are equal —
including when both are null — capped at `1.0`; when both tags are non-null
this agrees with the claimed formula; and the fallback backend returns just
the mean of the two name similarities, with no time or sport bonus and no
cap. -/
theorem C4_match_score_formula (sim ratio : String → String → ℚ)
    (p : PinGame) (c : Cs500Game) :
    (ai_match_score sim p c =
      pyMin 1 ((team_similarity_ai sim p.home_team c.home_team +
                team_similarity_ai sim p.away_team c.away_team) / 2 +
               timeScore p c +
               (if infer_sport_from_pinnacle_event p.event =
                   infer_sport_from_cs500_event c.event_name then 1/10 else 0))) ∧
    (∀ sp sc, infer_sport_from_pinnacle_event p.event = some sp →
        infer_sport_from_cs500_event c.event_name = some sc →
        ai_match_score sim p c = claimedMatchScore sim p c) ∧
    (ai_match_score_fb ratio p c =
      (team_similarity_fb ratio p.home_team c.home_team +
       team_similarity_fb ratio p.away_team c.away_team) / 2) := by
  refine ⟨?_, fun sp sc h1 h2 => ?_, rfl⟩
  · simp [ai_match_score, sportScore]
  · simp [ai_match_score, claimedMatchScore, sportScore, h1, h2]

/-- A freshly captured row fails the `closing odds IS NULL` guard. -/
theorem closingEligible_captureRow (now now' : ℤ) (r : PinnacleRow) :
    closingEligible now' (captureRow now r) = false := by
  simp [closingEligible, captureRow]

/-- A capture pass over a store none of whose markets are eligible selects
nothing and leaves the store unchanged. -/
theorem capture_closing_lines_noop (now : ℤ) (db : DBState)
    (h : ∀ r ∈ db.pinnacle, closingEligible now r = false) :
    capture_closing_lines now db = (0, db) := by
  simp only [capture_closing_lines, Prod.mk.injEq]
  constructor
  · rw [List.length_eq_zero]
    exact List.filter_eq_nil_iff.mpr fun r hr => by simp [h r hr]
  · have hmap : db.pinnacle.map
        (fun r => if closingEligible now r then captureRow now r else r) =
        db.pinnacle :=
      (List.map_congr_left fun r hr => by simp [h r hr]).trans (List.map_id' _)
    rw [hmap]

/-- C5: `capture_closing_lines` is idempotent — with no time advance and no
other mutation, a second call selects no markets (count `0`) and leaves the
store exactly as the first call left it, because every market either was
just captured (its closing odds are no longer `NULL`) or already failed the
selection guard. -/
theorem C5_capture_closing_lines_idempotent (now : ℤ) (db : DBState) :
    capture_closing_lines now (capture_closing_lines now db).2 =
      (0, (capture_closing_lines now db).2) := by
  apply capture_closing_lines_noop
  intro r hr
  simp only [capture_closing_lines] at hr
  obtain ⟨r0, _, rfl⟩ := List.mem_map.mp hr
  by_cases h0 : closingEligible now r0
  · rw [if_pos h0]
    exact closingEligible_captureRow now now r0
  · rw [if_neg h0]
    simpa using h0

/-- C1 (code bug): market `m1`'s closing line is captured — and then a later
scrape containing the same market id wipes it.  `store_pinnacle_markets`
uses `INSERT OR REPLACE`, which deletes the conflicting row and inserts a
fresh one whose unlisted columns (`home_closing_odds`, `away_closing_odds`,
`closing_captured_at`) revert to `NULL`, contradicting the claimed
immutability of captured closing odds. -/
theorem C1_closing_odds_wiped_on_rescrape :
    ((capture_closing_lines 1000 dbC1).2.pinnacle.map PinnacleRow.home_closing_odds
        = [some (19/10)] ∧
      (capture_closing_lines 1000 dbC1).2.pinnacle.map PinnacleRow.away_closing_odds
        = [some 2] ∧
      (capture_closing_lines 1000 dbC1).2.pinnacle.map PinnacleRow.closing_captured_at
        = [some 1000]) ∧
    ((store_pinnacle_markets [mIn1] (capture_closing_lines 1000 dbC1).2).pinnacle.map
        PinnacleRow.home_closing_odds = [none] ∧
      (store_pinnacle_markets [mIn1] (capture_closing_lines 1000 dbC1).2).pinnacle.map
        PinnacleRow.away_closing_odds = [none] ∧
      (store_pinnacle_markets [mIn1] (capture_closing_lines 1000 dbC1).2).pinnacle.map
        PinnacleRow.closing_captured_at = [none]) := by
  set_option maxRecDepth 4000 in with_unfolding_all decide

/-- C8 (code bug): placing a bet that references the nonexistent market id
`ghost` against an empty `pinnacle_markets` table is silently accepted —
the insert succeeds and returns rowid `1` — because `get_connection` never
issues `PRAGMA foreign_keys = ON`, so the declared foreign key is not
enforced.  The claim says such an insert fails and leaves `bets`
unchanged. -/
theorem C8_place_bet_fk_not_enforced :
    dbC8.pinnacle = [] ∧
      (place_bet betIn8 dbC8).1 = 1 ∧
      (place_bet betIn8 dbC8).2.bets.map BetRow.pinnacle_id = ["ghost"] ∧
      (place_bet betIn8 dbC8).2.bets.length = 1 := by
  with_unfolding_all decide

/-- C6: for a bet joined to its reference market, if the closing odds of the
bet's side are `NULL` the update returns `False` and mutates nothing; if
they are a positive value `c` (and the bet odds are positive decimal odds),
the update returns `True` and writes
`clv_percentage = (bet_odds - c)/c * 100` and
`clv = (1/c - 1/bet_odds) * 100` onto the bet — and that `clv` is positive
exactly when the bet's odds exceed the closing odds. -/
theorem C6_update_bet_clv_formulas (bet_id : ℕ) (db : DBState)
    (b : BetRow) (p : PinnacleRow)
    (hb : db.bets.find? (fun x => x.id = bet_id) = some b)
    (hp : db.pinnacle.find? (fun x => x.id = b.pinnacle_id) = some p) :
    ((if b.bet_side = "home" then p.home_closing_odds else p.away_closing_odds)
        = none → update_bet_clv bet_id db = (false, db)) ∧
    (∀ c, (if b.bet_side = "home" then p.home_closing_odds else p.away_closing_odds)
        = some c → 0 < c → 0 < b.odds →
      update_bet_clv bet_id db =
        (true,
         { db with
           bets := db.bets.map fun x =>
             if x.id = bet_id then
               { x with
                 closing_odds := some c
                 clv := some ((1 / c - 1 / b.odds) * 100)
                 clv_percentage := some ((b.odds - c) / c * 100) }
             else x }) ∧
      (0 < (1 / c - 1 / b.odds) * 100 ↔ c < b.odds)) := by
  constructor
  · intro hnone
    simp only [update_bet_clv, hb, hp, hnone, pyTruthy]
    rfl
  · intro c hc hcpos hopos
    have htr : pyTruthy (some c) = true := by
      simp [pyTruthy, bne_iff_ne]
      exact ne_of_gt hcpos
    constructor
    · simp only [update_bet_clv, hb, hp, hc, htr, if_true, Option.getD_some]
    · constructor
      · intro hpos
        by_contra hnot
        have hle : b.odds ≤ c := not_lt.mp hnot
        have : 1 / c ≤ 1 / b.odds := one_div_le_one_div_of_le hopos hle
        nlinarith
      · intro hlt
        have : 1 / b.odds < 1 / c := one_div_lt_one_div_of_lt hcpos hlt
        nlinarith

set_option maxRecDepth 16000 in
/-- Witness for C6: bet 1 (odds `2.10`, closing `2.00`) gets
`clv = 50/21 ≈ 2.38` and `clv_percentage = 5`, positive since
`2 < 2.10`; bet 3's side has `NULL` closing odds, so the update reports
`False` and leaves the store untouched. -/
theorem C6_update_bet_clv_formulas_witness :
    update_bet_clv 1 db6 = (true, db6after) ∧
      (0 < ((1 : ℚ)/2 - 1/(21/10)) * 100 ↔ (2 : ℚ) < 21/10) ∧
      update_bet_clv 3 db6 = (false, db6) := by
  have h1 := C6_update_bet_clv_formulas 1 db6 bet61 m6
    (by with_unfolding_all decide) (by with_unfolding_all decide)
  have h3 := C6_update_bet_clv_formulas 3 db6 bet63 m6
    (by with_unfolding_all decide) (by with_unfolding_all decide)
  obtain ⟨heq, hiff⟩ := h1.2 2 (by with_unfolding_all decide)
    (by norm_num) (by unfold bet61; norm_num)
  refine ⟨heq.trans ?_, hiff, h3.1 (by with_unfolding_all decide)⟩
  with_unfolding_all decide

/-- `pyMin` is `min`. -/
theorem pyMin_eq_min (a b : ℚ) : pyMin a b = min a b := by
  unfold pyMin
  rcases le_total a b with hab | hba
  · rw [if_pos hab, min_eq_left hab]
  · by_cases h : a ≤ b
    · rw [if_pos h, min_eq_left h]
    · rw [if_neg h, min_eq_right hba]

/-- `pyMax` is `max`. -/
theorem pyMax_eq_max (a b : ℚ) : pyMax a b = max a b := by
  unfold pyMax
  rcases le_total b a with hba | hab
  · rw [if_pos hba, max_eq_left hba]
  · by_cases h : b ≤ a
    · rw [if_pos h, max_eq_left h]
    · rw [if_neg h, max_eq_right hab]

/-- C7: in every row of the EV projection, the side EV percentages are the
power-method fair probability times the same side's retail odds, minus one
(×100); when at least one side is positive, `best_bet` is the side with the
strictly higher EV percentage (ties fall to `'away'`) and `best_ev_pct` is
that side's value; when neither is positive, `best_bet` is null and
`best_ev_pct` is the maximum (least negative) of the two. -/
theorem C7_best_bet_selection (db : DBState) (row : MatchedRow)
    (hrow : row ∈ get_matched_markets db) :
    (row.home_ev_pct > 0 ∨ row.away_ev_pct > 0 →
      (row.home_ev_pct > row.away_ev_pct →
        row.best_bet = some "home" ∧ row.best_ev_pct = row.home_ev_pct) ∧
      (row.home_ev_pct ≤ row.away_ev_pct →
        row.best_bet = some "away" ∧ row.best_ev_pct = row.away_ev_pct)) ∧
    (¬(row.home_ev_pct > 0 ∨ row.away_ev_pct > 0) →
      row.best_bet = none ∧
        row.best_ev_pct = max row.home_ev_pct row.away_ev_pct) ∧
    row.home_ev_pct = (1 / row.home_fair * row.cs500_home_odds - 1) * 100 ∧
    row.away_ev_pct = (1 / row.away_fair * row.cs500_away_odds - 1) * 100 := by
  simp only [get_matched_markets, List.mem_filterMap] at hrow
  obtain ⟨m, _, heq⟩ := hrow
  rcases hfp : db.pinnacle.find? fun p => p.id = m.pinnacle_id with _ | p
  · rw [hfp] at heq; simp at heq
  rcases hfc : db.cs500.find? fun c => c.match_id = m.cs500_match_id with _ | c
  · rw [hfp, hfc] at heq; simp at heq
  rw [hfp, hfc] at heq
  dsimp only at heq
  by_cases hact : p.is_active && c.is_active
  swap
  · rw [if_neg hact] at heq; simp at heq
  rw [if_pos hact] at heq
  obtain rfl : computeMatchedRow p c m.confidence_score = row := by
    simpa using heq
  simp only [computeMatchedRow]
  refine ⟨fun hpos => ⟨fun hgt => ?_, fun hle => ?_⟩, fun hneg => ?_, ?_, ?_⟩
  · rw [if_pos hpos, if_pos hgt]
    exact ⟨rfl, rfl⟩
  · rw [if_pos hpos, if_neg (not_lt.mpr hle)]
    exact ⟨rfl, rfl⟩
  · rw [if_neg hneg]
    exact ⟨rfl, pyMax_eq_max _ _⟩
  · trivial
  · trivial

set_option maxRecDepth 16000 in
/-- Witness for C7 on the concrete store `dbEV` (home EV `+5%`, away EV
`-5%`): the projected row picks `best_bet = home` with `best_ev_pct` equal
to the home EV percentage. -/
theorem C7_best_bet_selection_witness :
    rowEV ∈ get_matched_markets dbEV ∧
      rowEV.best_bet = some "home" ∧ rowEV.best_ev_pct = rowEV.home_ev_pct := by
  have hmem : rowEV ∈ get_matched_markets dbEV := by with_unfolding_all decide
  have h := C7_best_bet_selection dbEV rowEV hmem
  exact ⟨hmem,
    ((h.1 (Or.inl (by with_unfolding_all decide))).1 (by with_unfolding_all decide)).1,
    ((h.1 (Or.inl (by with_unfolding_all decide))).1 (by with_unfolding_all decide)).2⟩

/-- Lowercasing fixes characters already in `[a-z0-9]`. -/
theorem lowerChar_of_isLowerAlnum (c : Char) (h : isLowerAlnum c = true) :
    lowerChar c = c := by
  have hn : ¬(65 ≤ c.toNat ∧ c.toNat ≤ 90) := by
    unfold isLowerAlnum at h
    simp only [Bool.or_eq_true, Bool.and_eq_true, decide_eq_true_eq] at h
    omega
  unfold lowerChar
  rw [if_neg hn]

/-- Lowercasing fixes the space character. -/
theorem lowerChar_space : lowerChar ' ' = ' ' := by decide

/-- Consuming an all-alphanumeric prefix pushes it (reversed) onto the
current-run accumulator. -/
theorem normTokensGo_append (t : List Char) (l acc : List Char)
    (h : ∀ c ∈ t, isLowerAlnum c = true) :
    normTokensGo (t ++ l) acc = normTokensGo l (t.reverse ++ acc) := by
  induction t generalizing acc with
  | nil => simp
  | cons c t ih =>
    have hc : isLowerAlnum c = true := h c (List.mem_cons_self c t)
    show normTokensGo (c :: (t ++ l)) acc = _
    rw [normTokensGo, if_pos hc,
      ih (c :: acc) fun c' hc' => h c' (List.mem_cons_of_mem c hc')]
    simp

/-- Hitting a space flushes the current run (if any). -/
theorem normTokensGo_space (m acc : List Char) :
    normTokensGo (' ' :: m) acc =
      if acc = [] then normTokensGo m [] else acc.reverse :: normTokensGo m [] := by
  rw [normTokensGo, if_neg (by decide)]

/-- Every run produced by the tokenizer is nonempty and all-alphanumeric. -/
theorem normTokensGo_good (l : List Char) :
    ∀ acc, (∀ c ∈ acc, isLowerAlnum c = true) →
      ∀ t ∈ normTokensGo l acc, t ≠ [] ∧ ∀ c ∈ t, isLowerAlnum c = true := by
  induction l with
  | nil =>
    intro acc hacc t ht
    rw [normTokensGo] at ht
    by_cases h : acc = []
    · rw [if_pos h] at ht; simp at ht
    · rw [if_neg h] at ht
      simp only [List.mem_singleton] at ht
      subst ht
      exact ⟨by simpa using h, fun c hc => hacc c (List.mem_reverse.mp hc)⟩
  | cons c cs ih =>
    intro acc hacc t ht
    rw [normTokensGo] at ht
    by_cases hc : isLowerAlnum c
    · rw [if_pos hc] at ht
      exact ih (c :: acc) (fun c' hc' => by
        rcases List.mem_cons.mp hc' with rfl | h'
        · exact hc
        · exact hacc c' h') t ht
    · rw [if_neg hc] at ht
      by_cases ha : acc = []
      · rw [if_pos ha] at ht
        exact ih [] (by simp) t ht
      · rw [if_neg ha] at ht
        rcases List.mem_cons.mp ht with rfl | h'
        · exact ⟨by simpa using ha, fun c' hc' => hacc c' (List.mem_reverse.mp hc')⟩
        · exact ih [] (by simp) t h'

/-- Every character of a joined token list is a token character or a space. -/
theorem joinTokens_mem (ts : List (List Char)) (c : Char)
    (hc : c ∈ joinTokens ts) : (∃ t ∈ ts, c ∈ t) ∨ c = ' ' := by
  induction ts with
  | nil => simp [joinTokens] at hc
  | cons t ts ih =>
    cases ts with
    | nil =>
      rw [joinTokens] at hc
      exact Or.inl ⟨t, List.mem_singleton_self t, hc⟩
    | cons t2 ts2 =>
      rw [joinTokens] at hc
      rcases List.mem_append.mp hc with h1 | h2
      · exact Or.inl ⟨t, List.mem_cons_self t _, h1⟩
      · rcases List.mem_cons.mp h2 with rfl | h3
        · exact Or.inr rfl
        · rcases ih h3 with ⟨t', ht', hct'⟩ | hsp
          · exact Or.inl ⟨t', List.mem_cons_of_mem t ht', hct'⟩
          · exact Or.inr hsp

/-- Tokenizing a space-joined list of nonempty all-alphanumeric runs
recovers exactly those runs. -/
theorem normTokensGo_joinTokens (ts : List (List Char))
    (h : ∀ t ∈ ts, t ≠ [] ∧ ∀ c ∈ t, isLowerAlnum c = true) :
    normTokensGo (joinTokens ts) [] = ts := by
  induction ts with
  | nil => rfl
  | cons t ts ih =>
    obtain ⟨hne, hall⟩ := h t (List.mem_cons_self t ts)
    cases ts with
    | nil =>
      rw [joinTokens]
      calc normTokensGo t [] = normTokensGo (t ++ []) [] := by rw [List.append_nil]
        _ = normTokensGo [] (t.reverse ++ []) := normTokensGo_append t [] [] hall
        _ = [t] := by
            rw [List.append_nil, normTokensGo,
              if_neg (by simpa using hne), List.reverse_reverse]
    | cons t2 ts2 =>
      rw [joinTokens,
        normTokensGo_append t (' ' :: joinTokens (t2 :: ts2)) [] hall,
        List.append_nil, normTokensGo_space,
        if_neg (by simpa using hne), List.reverse_reverse,
        ih fun t' ht' => h t' (List.mem_cons_of_mem t ht')]

/-- Lowercasing is the identity on a space-joined list of alphanumeric
runs. -/
theorem map_lowerChar_joinTokens (ts : List (List Char))
    (h : ∀ t ∈ ts, t ≠ [] ∧ ∀ c ∈ t, isLowerAlnum c = true) :
    (joinTokens ts).map lowerChar = joinTokens ts :=
  (List.map_congr_left fun c hc => by
    rcases joinTokens_mem ts c hc with ⟨t, ht, hct⟩ | rfl
    · exact lowerChar_of_isLowerAlnum c ((h t ht).2 c hct)
    · exact lowerChar_space).trans (List.map_id' _)

/-- `_norm_team` is idempotent: its output is lowercase-alphanumeric runs
joined by single spaces, and re-normalizing such a string is the
identity. -/
theorem norm_team_idem (s : String) : norm_team (norm_team s) = norm_team s := by
  unfold norm_team normTokens
  have hgood := normTokensGo_good (s.data.map lowerChar) [] (by simp)
  congr 1
  rw [map_lowerChar_joinTokens _ hgood, normTokensGo_joinTokens _ hgood]

/-- A successful association-list lookup returns one of the stored values. -/
theorem lookup_mem_values (l : List (String × String)) (k v : String)
    (h : l.lookup k = some v) : ∃ pr ∈ l, pr.2 = v := by
  induction l with
  | nil => simp [List.lookup] at h
  | cons p l ih =>
    cases p with
    | mk k' v' =>
      rw [List.lookup] at h
      by_cases hk : k == k'
      · rw [hk] at h
        exact ⟨(k', v'), List.mem_cons_self _ _, Option.some.inj h⟩
      · rw [Bool.not_eq_true] at hk
        rw [hk] at h
        obtain ⟨pr, hpr, hv⟩ := ih h
        exact ⟨pr, List.mem_cons_of_mem _ hpr, hv⟩

/-- Every canonical value in the alias table is itself a fixed point of
`canonical_team` (checked by evaluation over the whole table). -/
theorem team_aliases_values_fixed :
    (TEAM_ALIASES.all fun pr => canonical_team pr.2 == pr.2) = true := by decide

/-- C10: team canonicalization is idempotent — every canonical token it
produces (an alias-table value or the normalized string itself) is a fixed
point of `canonical_team`. -/
theorem C10_canonical_team_idempotent (s : String) :
    canonical_team (canonical_team s) = canonical_team s := by
  unfold canonical_team
  cases hl : TEAM_ALIASES.lookup (norm_team s) with
  | none =>
    simp only [Option.getD_none]
    rw [norm_team_idem, hl]
    rfl
  | some v =>
    simp only [Option.getD_some]
    obtain ⟨pr, hmem, hv⟩ := lookup_mem_values TEAM_ALIASES (norm_team s) v hl
    have hfix : canonical_team pr.2 = pr.2 :=
      eq_of_beq (List.all_eq_true.mp team_aliases_values_fixed pr hmem)
    rw [hv] at hfix
    unfold canonical_team at hfix
    exact hfix

/-! ### Sanity evaluations of the embedding on concrete inputs -/

example : norm_team "  G2 -- Esports!! " = "g2 esports" := by decide

example : canonical_team "Natus Vincere" = "navi" := by decide

example : canonical_team "G2 Esports" = "g2" := by decide

example : infer_sport_from_pinnacle_event "CS2 - ESL Pro League" = some "cs2" := by
  decide

example : infer_sport_from_pinnacle_event "League of Legends - LCK" = some "lol" := by
  decide

example : infer_sport_from_pinnacle_event "" = none := by decide

example : (capture_closing_lines 1000 dbC1).1 = 1 := by
  with_unfolding_all decide

example : rowEV.home_ev_pct = 5 ∧ rowEV.away_ev_pct = -5 := by
  with_unfolding_all decide
